import Mathlib

/-!
Verification of the core components of the claude-code-action repository:

* the streaming output relay (`StreamHandler` in `base-action/src/index.ts`),
* the mode detector and registry (`src/modes/detector.ts`, `src/modes/registry.ts`),
* the resume resolver (`fetchResumeData` in the remote-agent branch module),
* the system progress reporter (`src/modes/remote-agent/system-progress-handler.ts`).

The TypeScript is embedded shallowly: each method becomes a pure Lean function
over an explicit state record, with time (`Date.now()`) passed in as a `Nat`
argument and the nondeterministic environment (token mints, HTTP outcomes)
supplied as oracles indexed by invocation count.  The trace of externally
visible effects (token fetches, POST attempts) is returned alongside the
state.
-/

/-! ## JavaScript string splitting

`data.split("\n")` in `StreamHandler.addOutput` splits on every newline,
keeping empty segments; e.g. `"a\nb" ↦ ["a","b"]`, `"" ↦ [""]`,
`"\n" ↦ ["", ""]`.  `splitNl` mirrors this on the character list. -/

def splitNl : List Char → List (List Char)
  | [] => [[]]
  | c :: rest =>
    let r := splitNl rest
    if c = '\n' then [] :: r
    else
      match r with
      | [] => [[c]]
      | g :: gs => (c :: g) :: gs

/-- `data.split("\n").filter((line) => line.length > 0)` from
`StreamHandler.addOutput` (base-action/src/index.ts). -/
def splitLines (data : String) : List String :=
  ((splitNl data.data).map (fun cs => String.mk cs)).filter (fun l => l.length > 0)

/-! ## StreamHandler (base-action/src/index.ts)

State of the class instance.  `fetchCount` is a ghost counter used only to
index the token oracle (the class itself keeps no such counter); it does not
influence control flow.  `flushTimer` records the instant at which the armed
idle timer would fire (`armTime + BATCH_TIMEOUT_MS`); a `setTimeout` handle in
the source. -/

structure StreamState where
  token : Option String
  tokenFetchTime : Nat
  buffer : List String
  flushTimer : Option Nat
  isClosed : Bool
  fetchCount : Nat
deriving Repr, DecidableEq

def initialStreamState : StreamState :=
  { token := none, tokenFetchTime := 0, buffer := [], flushTimer := none,
    isClosed := false, fetchCount := 0 }

/-- Environment of a `StreamHandler` instance: `tokenResults n` is the result
of the `n`-th invocation of `this.tokenGetter` (success with the minted token,
or a rejection), and `postResults n` is the network outcome of the `n`-th
POST.  The handler never reads `postResults`: `flush` discards the `fetch`
response and catches rejections, which we prove below (claim C4). -/
structure StreamEnv where
  tokenResults : Nat → Except String String
  postResults : Nat → Bool

/-- Externally visible effects of the handler: a call of the token getter
(with its result), or an HTTP POST attempt carrying the JSON payload fields
`timestamp` and `output` plus the bearer token used. -/
inductive StreamEvent
  | tokenFetch (result : Except String String)
  | post (timestamp : Nat) (output : List String) (token : String)
deriving Repr

def StreamEvent.isTokenFetch : StreamEvent → Bool
  | .tokenFetch _ => true
  | _ => false

/-- The `output` payloads of the POST attempts in a trace. -/
def postOutputs (evs : List StreamEvent) : List (List String) :=
  evs.filterMap fun e =>
    match e with
    | .post _ out _ => some out
    | _ => none

def countTokenFetches (evs : List StreamEvent) : Nat :=
  (evs.filter StreamEvent.isTokenFetch).length

/-- `TOKEN_LIFETIME_MS = 4 * 60 * 1000`. -/
def TOKEN_LIFETIME_MS : Nat := 4 * 60 * 1000
/-- `BATCH_SIZE = 10`. -/
def BATCH_SIZE : Nat := 10
/-- `BATCH_TIMEOUT_MS = 1000`. -/
def BATCH_TIMEOUT_MS : Nat := 1000

/-- JavaScript truthiness of the `token` field (`!this.token` is true both
for `null` and for the empty string). -/
def tokenTruthy : Option String → Bool
  | none => false
  | some s => s ≠ ""

/-- `StreamHandler.getToken`.  Fetches via the oracle when the cached token is
falsy or its age reached `TOKEN_LIFETIME_MS`; otherwise returns the cache.  On
a rejected fetch the cache and its timestamp are left untouched (the
assignments in the source happen only after a successful `await`). -/
def getToken (env : StreamEnv) (now : Nat) (st : StreamState) :
    Except String String × StreamState × List StreamEvent :=
  if ¬ tokenTruthy st.token ∨ TOKEN_LIFETIME_MS ≤ now - st.tokenFetchTime then
    match env.tokenResults st.fetchCount with
    | .ok t =>
        (.ok t,
         { st with token := some t, tokenFetchTime := now,
                   fetchCount := st.fetchCount + 1 },
         [.tokenFetch (.ok t)])
    | .error e =>
        (.error ("Failed to get OIDC token: " ++ e),
         { st with fetchCount := st.fetchCount + 1 },
         [.tokenFetch (.error e)])
  else
    (.ok (st.token.getD ""), st, [])

/-- `StreamHandler.flush`.  Early-returns on an empty buffer; otherwise clears
the idle timer, swaps the buffer out, and attempts to obtain a token and POST
`{timestamp, output}`.  The entire token-fetch-and-POST is wrapped in
`try/catch`: a token failure aborts only the POST attempt and a POST failure
changes nothing, so the function always returns a normal state. -/
def flush (env : StreamEnv) (now : Nat) (st : StreamState) :
    StreamState × List StreamEvent :=
  if st.buffer = [] then (st, [])
  else
    let output := st.buffer
    let st1 := { st with flushTimer := none, buffer := [] }
    match getToken env now st1 with
    | (.ok t, st2, evs) => (st2, evs ++ [.post now output t])
    | (.error _, st2, evs) => (st2, evs)

/-- `StreamHandler.addOutput`.  No-op when closed; otherwise splits the chunk
into non-empty lines, appends them to the buffer, and either flushes
synchronously (buffer length ≥ `BATCH_SIZE`) or (re)arms the idle timer. -/
def addOutput (env : StreamEnv) (now : Nat) (data : String) (st : StreamState) :
    StreamState × List StreamEvent :=
  if st.isClosed then (st, [])
  else
    let lines := splitLines data
    let st1 := { st with buffer := st.buffer ++ lines }
    if BATCH_SIZE ≤ st1.buffer.length then flush env now st1
    else ({ st1 with flushTimer := some (now + BATCH_TIMEOUT_MS) }, [])

/-- `StreamHandler.close`.  Clears any pending timer, performs a final flush
when the buffer is non-empty, then marks the handler closed. -/
def close (env : StreamEnv) (now : Nat) (st : StreamState) :
    StreamState × List StreamEvent :=
  let st1 := { st with flushTimer := none }
  let r := if st1.buffer ≠ [] then flush env now st1 else (st1, [])
  ({ r.1 with isClosed := true }, r.2)

/-- A sequence of `addOutput` calls, each at its own instant, with the traces
concatenated in call order. -/
def addOutputs (env : StreamEnv) : List (Nat × String) → StreamState →
    StreamState × List StreamEvent
  | [], st => (st, [])
  | c :: rest, st =>
    let r1 := addOutput env c.1 c.2 st
    let r2 := addOutputs env rest r1.1
    (r2.1, r1.2 ++ r2.2)

/-! ## GitHub context (src/github/context.ts)

Only the fields consulted by `detectMode`, `checkContainsTrigger` and
`getMode` are modelled; the payload variants of the TypeScript union are
flattened into one record of optional fields. -/

inductive EventName
  | issues
  | issue_comment
  | pull_request
  | pull_request_review
  | pull_request_review_comment
  | workflow_dispatch
  | schedule
deriving Repr, DecidableEq

structure ContextInputs where
  prompt : String
  triggerPhrase : String
  assigneeTrigger : String
  labelTrigger : String
deriving Repr, DecidableEq

structure ContextPayload where
  action : Option String
  commentBody : Option String
  issueBody : Option String
  issueTitle : Option String
  prBody : Option String
  prTitle : Option String
  reviewBody : Option String
  assigneeLogin : Option String
  labelName : Option String
deriving Repr, DecidableEq

def emptyPayload : ContextPayload :=
  { action := none, commentBody := none, issueBody := none, issueTitle := none,
    prBody := none, prTitle := none, reviewBody := none, assigneeLogin := none,
    labelName := none }

structure GitHubContext where
  eventName : EventName
  eventAction : Option String
  inputs : ContextInputs
  payload : ContextPayload
deriving Repr, DecidableEq

/-- `isEntityContext` (src/github/context.ts): the entity arm of the
`GitHubContext` union, i.e. every event except the automation events. -/
def isEntityContext (ctx : GitHubContext) : Bool :=
  ctx.eventName = .issues ∨ ctx.eventName = .issue_comment ∨
  ctx.eventName = .pull_request ∨ ctx.eventName = .pull_request_review ∨
  ctx.eventName = .pull_request_review_comment

def isIssueCommentEvent (ctx : GitHubContext) : Bool :=
  ctx.eventName = .issue_comment

def isPullRequestEvent (ctx : GitHubContext) : Bool :=
  ctx.eventName = .pull_request

def isPullRequestReviewEvent (ctx : GitHubContext) : Bool :=
  ctx.eventName = .pull_request_review

def isPullRequestReviewCommentEvent (ctx : GitHubContext) : Bool :=
  ctx.eventName = .pull_request_review_comment

def isAutomationContext (ctx : GitHubContext) : Bool :=
  ctx.eventName = .workflow_dispatch ∨ ctx.eventName = .schedule

/-! ## Trigger-phrase matching

Modelled from the spec: the body of `checkContainsTrigger`
(src/github/validation/trigger.ts) is not part of the snapshot — only its
test suite (src/github/validation/__tests__/trigger.test.ts) and its callers
are.  The matcher is modelled from spec §4.1 rule 3 together with the test
suite, which pins the behaviour: the trigger phrase matches case-sensitively
and regardless of markdown context (code fences included), but only when it
is preceded by start-of-text or whitespace and followed by whitespace, one of
`.,!?;:`, or end-of-text (the regex
`(^|\s)<phrase>([\s.,!?;:]|$)`); in particular a phrase embedded in a longer
word ("@claudette") does not match. -/

/-- JavaScript regex `\s` on the characters occurring in the sources. -/
def isWsChar (c : Char) : Bool :=
  c = ' ' ∨ c = '\t' ∨ c = '\n' ∨ c = '\r' ∨ c = '\x0b' ∨ c = '\x0c'

/-- The character class `[\s.,!?;:]` allowed right after the phrase. -/
def trailOk : List Char → Bool
  | [] => true
  | c :: _ =>
    isWsChar c || (c = '.' || c = ',' || c = '!' || c = '?' || c = ';' || c = ':')

/-- Does the phrase match right here (prefix of `body`, boundary after)? -/
def hereMatch (phrase body : List Char) : Bool :=
  phrase.isPrefixOf body && trailOk (body.drop phrase.length)

/-- Scan the body left to right; `ab` records whether the current position is
preceded by start-of-text or whitespace (the `(^|\s)` part of the regex). -/
def triggerScan (phrase : List Char) : Bool → List Char → Bool
  | ab, [] => ab && hereMatch phrase []
  | ab, c :: rest =>
    (ab && hereMatch phrase (c :: rest)) || triggerScan phrase (isWsChar c) rest

/-- `regex.test(text)` for `(^|\s)<phrase>([\s.,!?;:]|$)`. -/
def containsTriggerMatch (text phrase : String) : Bool :=
  triggerScan phrase.data true text.data

/-- Modelled from the spec: `checkContainsTrigger`
(src/github/validation/trigger.ts) is missing from the snapshot; this
definition follows spec §4.1 rules 3–5 and §8, constrained by the test suite
of the repository.  A non-empty explicit prompt always triggers; an
issue-assigned event triggers on a matching assignee, an issue-labeled event
on a matching label; otherwise the body/title of the entity is scanned with
`containsTriggerMatch`. -/
def checkContainsTrigger (ctx : GitHubContext) : Bool :=
  let phrase := ctx.inputs.triggerPhrase
  if ctx.inputs.prompt ≠ "" then true
  else if ctx.eventName = .issues ∧ ctx.eventAction = some "assigned" then
    ctx.inputs.assigneeTrigger ≠ "" ∧
    ctx.payload.assigneeLogin.getD "" = ctx.inputs.assigneeTrigger
  else if ctx.eventName = .issues ∧ ctx.eventAction = some "labeled" then
    ctx.inputs.labelTrigger ≠ "" ∧
    ctx.payload.labelName.getD "" = ctx.inputs.labelTrigger
  else if ctx.eventName = .issues then
    containsTriggerMatch (ctx.payload.issueBody.getD "") phrase ||
    containsTriggerMatch (ctx.payload.issueTitle.getD "") phrase
  else if isPullRequestEvent ctx then
    containsTriggerMatch (ctx.payload.prBody.getD "") phrase ||
    containsTriggerMatch (ctx.payload.prTitle.getD "") phrase
  else if isPullRequestReviewEvent ctx then
    containsTriggerMatch (ctx.payload.reviewBody.getD "") phrase
  else if isIssueCommentEvent ctx || isPullRequestReviewCommentEvent ctx then
    containsTriggerMatch (ctx.payload.commentBody.getD "") phrase
  else false

/-! ## Mode detector (src/modes/detector.ts, primary document)

The detector at the head of `src/modes/detector.ts` returns only `tag` or
`agent` and gives an explicit non-empty prompt absolute precedence.  (A
superseded copy later in the same file lacks the prompt check and can return
`review`; the registry still lists `review` among the valid modes, so the
Lean enumeration keeps all three constructors.) -/

inductive AutoDetectedMode
  | tag
  | agent
  | review
deriving Repr, DecidableEq

/-- `detectMode` (src/modes/detector.ts, lines 11–36). -/
def detectMode (ctx : GitHubContext) : AutoDetectedMode :=
  if ctx.inputs.prompt ≠ "" then .agent
  else if isEntityContext ctx ∧
      (isIssueCommentEvent ctx || isPullRequestReviewCommentEvent ctx) ∧
      checkContainsTrigger ctx then .tag
  else if isEntityContext ctx ∧ ctx.eventName = .issues ∧
      checkContainsTrigger ctx then .tag
  else .agent

/-! ## Mode registry (src/modes/registry.ts)

The policy objects themselves (`tagMode`, `agentMode`, `reviewMode`) are kept
abstract as named records; the claims concern only which object `getMode`
selects and that selection never fails. -/

structure Mode where
  name : String
deriving Repr, DecidableEq

def tagMode : Mode := { name := "tag" }
def agentMode : Mode := { name := "agent" }
def reviewMode : Mode := { name := "review" }

/-- The `modes` record; at runtime `modes[modeName]` is an object-key lookup
on the string `modeName`, which is `undefined` for any other key. -/
def modesLookup : String → Option Mode
  | "tag" => some tagMode
  | "agent" => some agentMode
  | "review" => some reviewMode
  | _ => none

/-- `isValidModeV1` (src/modes/registry.ts, lines 71–74). -/
def isValidModeV1 (name : String) : Bool :=
  name = "tag" ∨ name = "agent" ∨ name = "review" ∨ name = "experimental-review"

/-- `mapLegacyMode`: rewrites `experimental-review` and otherwise returns the
name unchanged (the source merely casts it). -/
def mapLegacyMode (name : String) : String :=
  if name = "experimental-review" then "review" else name

def autoDetectedModeName : AutoDetectedMode → String
  | .tag => "tag"
  | .agent => "agent"
  | .review => "review"

/-- `getMode` (src/modes/registry.ts, lines 33–54).  `explicitMode` is the
optional caller-supplied override; a falsy (empty) or invalid name falls back
to `detectMode`.  The `throw` on a missing `modes` entry is modelled as
`Except.error`. -/
def getMode (ctx : GitHubContext) (explicitMode : Option String) :
    Except String Mode :=
  let modeName : String :=
    match explicitMode with
    | some e =>
        if e ≠ "" && isValidModeV1 e then mapLegacyMode e
        else autoDetectedModeName (detectMode ctx)
    | none => autoDetectedModeName (detectMode ctx)
  match modesLookup modeName with
  | some m => .ok m
  | none => .error ("Mode not found")

/-- The mode object selected for each detected mode name. -/
def autoMode : AutoDetectedMode → Mode
  | .tag => tagMode
  | .agent => agentMode
  | .review => reviewMode

/-! ## Resume resolver (`fetchResumeData`, remote-agent branch module)

A small JSON value type; `response.json()` either rejects (unparseable body)
or yields one of these. -/

inductive Json
  | null
  | bool (b : Bool)
  | num (n : Int)
  | str (s : String)
  | arr (items : List Json)
  | obj (fields : List (String × Json))
deriving Repr

/-- Field access `data.k` on a parsed JSON value (`undefined` off objects). -/
def jsonGet (j : Json) (k : String) : Option Json :=
  match j with
  | .obj fields => (fields.find? fun p => p.1 = k).map fun p => p.2
  | _ => none

/-- Outcome of the GET to the resume endpoint: the fetch promise rejects, or
a response arrives with a status code and a body that either fails JSON
parsing (`none`) or parses to a value. -/
inductive ResumeFetchOutcome
  | netErr
  | response (status : Nat) (body : Option Json)
deriving Repr

/-- `response.ok`: status in the range 200–299. -/
def responseOk (status : Nat) : Bool :=
  200 ≤ status ∧ status ≤ 299

structure ResumeResult where
  messages : List Json
  branchName : String
deriving Repr

/-- `fetchResumeData` (remote-agent branch module, lines 25–67).  Non-ok
responses and bodies whose `log` field is not an array yield `null`; a
rejected fetch or a JSON parse error is caught by the surrounding `try` and
also yields `null`.  On success the `log` array is returned together with
`data.branch || ""`. -/
def fetchResumeData (outcome : ResumeFetchOutcome) : Option ResumeResult :=
  match outcome with
  | .netErr => none
  | .response status body =>
    if ¬ responseOk status then none
    else
      match body with
      | none => none
      | some data =>
        match jsonGet data "log" with
        | some (.arr msgs) =>
          some { messages := msgs,
                 branchName :=
                   match jsonGet data "branch" with
                   | some (.str s) => s
                   | _ => "" }
        | _ => none

/-! ## System progress reporter (src/modes/remote-agent/system-progress-handler.ts)

The `data` payloads of the four `ProgressEvent` variants
(src/modes/remote-agent/progress-types.ts). -/

/-- The `data.error` object of a `workflow_failed` event: exactly the three
fields `phase`, `message`, `code`. -/
structure FailedErrorData where
  phase : String
  message : String
  code : String
deriving Repr, DecidableEq

inductive ProgressEventData
  | workflowInitializing (branch : String) (baseBranch : String)
      (sessionId : Option String)
  | claudeStarting
  | claudeComplete (exitCode : Int) (durationMs : Int)
  | workflowFailed (error : FailedErrorData)
deriving Repr, DecidableEq

/-- The `event_type` discriminator string of each variant. -/
def eventTypeOf : ProgressEventData → String
  | .workflowInitializing _ _ _ => "workflow_initializing"
  | .claudeStarting => "claude_starting"
  | .claudeComplete _ _ => "claude_complete"
  | .workflowFailed _ => "workflow_failed"

structure ProgressEvent where
  timestamp : String
  data : ProgressEventData
deriving Repr, DecidableEq

/-- The `phase` parameter of `reportWorkflowFailed`. -/
inductive FailPhase
  | initialization
  | claude_execution
deriving Repr, DecidableEq

def FailPhase.str : FailPhase → String
  | .initialization => "initialization"
  | .claude_execution => "claude_execution"

/-- Outcome of the background POST issued by `sendProgressEvent`. -/
inductive NetOutcome
  | ok (status : Nat)
  | reject
deriving Repr, DecidableEq

/-- The body of the detached task inside `sendProgressEvent`: a rejected or
aborted fetch is an error; a response is consumed normally (a non-2xx status
is only logged). -/
def backgroundSend (outcome : NetOutcome) : Except String Unit :=
  match outcome with
  | .ok _ => .ok ()
  | .reject => .error "fetch failed"

/-- What `sendProgressEvent` leaves behind: the payload it serialized and
handed to the detached task, and the eventual result of that task: the `catch`
turns every failure into a logged warning (`warned`), never an exception. -/
structure SendReport where
  payload : ProgressEvent
  returned : Unit
  warned : Bool
deriving Repr, DecidableEq

/-- `sendProgressEvent` (system-progress-handler.ts, lines 15–62).  The
function itself returns `void` immediately (`Promise.resolve().then(...)` is
not awaited); `outcome` parametrizes the network result the detached task
later observes. -/
def sendProgressEvent (event : ProgressEvent) (outcome : NetOutcome) :
    SendReport :=
  { payload := event,
    returned := (),
    warned :=
      match backgroundSend outcome with
      | .ok _ => false
      | .error _ => true }

/-- `reportWorkflowFailed` (system-progress-handler.ts, lines 127–149). -/
def reportWorkflowFailed (timestamp : String) (phase : FailPhase)
    (errorMessage : String) (code : String) (outcome : NetOutcome) :
    SendReport :=
  let event : ProgressEvent :=
    { timestamp := timestamp,
      data := .workflowFailed
        { phase := phase.str, message := errorMessage, code := code } }
  sendProgressEvent event outcome

/-! ## Helper lemmas -/

/-- The idle-timer state left behind by a sequence of sub-threshold
`addOutput` calls: the timer armed by the last call (or the incoming one if the
sequence is empty). -/
def lastTimer : List (Nat × String) → Option Nat → Option Nat
  | [], t => t
  | c :: rest, _ => lastTimer rest (some (c.1 + BATCH_TIMEOUT_MS))

theorem addOutputs_closed (env : StreamEnv) (chunks : List (Nat × String))
    (st : StreamState) (h : st.isClosed = true) :
    addOutputs env chunks st = (st, []) := by
  induction chunks with
  | nil => rfl
  | cons c rest ih => simp [addOutputs, addOutput, h, ih]

theorem addOutputs_small (env : StreamEnv) :
    ∀ (chunks : List (Nat × String)) (st : StreamState),
    st.isClosed = false →
    (∀ c ∈ chunks, splitLines c.2 = [c.2]) →
    st.buffer.length + chunks.length < BATCH_SIZE →
    addOutputs env chunks st =
      ({ st with buffer := st.buffer ++ chunks.map Prod.snd,
                 flushTimer := lastTimer chunks st.flushTimer }, []) := by
  intro chunks
  induction chunks with
  | nil =>
    intro st _ _ _
    simp [addOutputs, lastTimer]
  | cons c rest ih =>
    intro st h1 h2 h3
    obtain ⟨tk, tft, buf, ft, cl, fc⟩ := st
    simp only at h1 h3
    subst h1
    have hc : splitLines c.2 = [c.2] := h2 c (List.mem_cons_self _ _)
    have hlen : ¬ (BATCH_SIZE ≤ buf.length + 1) := by
      simp only [List.length_cons] at h3
      omega
    have ihr := ih ⟨tk, tft, buf ++ [c.2], some (c.1 + BATCH_TIMEOUT_MS), false, fc⟩
      rfl (fun x hx => h2 x (List.mem_cons_of_mem _ hx))
      (by simp only [List.length_append, List.length_cons, List.length_nil]
          simp only [List.length_cons] at h3
          omega)
    simp [addOutputs, addOutput, hc, hlen, ihr, lastTimer]

/-! ## Claims about the relay -/

/-- C2: buffering exactly 10 non-empty single-line chunks triggers exactly one
flush, performed synchronously within the 10th `addOutput` call (the first
nine calls produce no effects at all), and the `output` array of its payload holds
exactly those 10 lines in insertion order; afterwards the buffer is empty and
no idle timer remains armed for the batch. -/
theorem streamHandler_tenth_add_flushes (env : StreamEnv)
    (chunks9 : List (Nat × String)) (t10 : Nat) (d10 : String) (tok : String)
    (h9 : chunks9.length = 9)
    (hs : ∀ c ∈ chunks9, splitLines c.2 = [c.2])
    (h10 : splitLines d10 = [d10])
    (htok : env.tokenResults 0 = .ok tok) :
    (addOutputs env chunks9 initialStreamState).2 = [] ∧
    (addOutputs env chunks9 initialStreamState).1.buffer =
      chunks9.map Prod.snd ∧
    addOutput env t10 d10 (addOutputs env chunks9 initialStreamState).1 =
      ({ initialStreamState with token := some tok, tokenFetchTime := t10,
                                 fetchCount := 1 },
       [StreamEvent.tokenFetch (.ok tok),
        StreamEvent.post t10 (chunks9.map Prod.snd ++ [d10]) tok]) := by
  have hsmall := addOutputs_small env chunks9 initialStreamState rfl hs
    (by simp [initialStreamState, h9, BATCH_SIZE])
  have hl : (chunks9.map Prod.snd).length = 9 := by simp [h9]
  refine ⟨by rw [hsmall], by rw [hsmall]; simp [initialStreamState], ?_⟩
  rw [hsmall]
  have hne : chunks9.map Prod.snd ++ [d10] ≠ [] := by simp
  simp [addOutput, flush, getToken, initialStreamState, h10, hl, hne,
    tokenTruthy, htok, BATCH_SIZE]

/-- An environment whose token getter always succeeds with the same token. -/
def constEnv (tok : String) : StreamEnv :=
  { tokenResults := fun _ => .ok tok, postResults := fun _ => true }

def sampleChunks9 : List (Nat × String) :=
  [(0, "l1"), (1, "l2"), (2, "l3"), (3, "l4"), (4, "l5"),
   (5, "l6"), (6, "l7"), (7, "l8"), (8, "l9")]

/-- Witness for C2 at nine concrete one-line chunks followed by a tenth. -/
theorem streamHandler_tenth_add_flushes_witness :
    (addOutputs (constEnv "tok") sampleChunks9 initialStreamState).2 = [] ∧
    (addOutputs (constEnv "tok") sampleChunks9 initialStreamState).1.buffer =
      sampleChunks9.map Prod.snd ∧
    addOutput (constEnv "tok") 9 "l10"
        (addOutputs (constEnv "tok") sampleChunks9 initialStreamState).1 =
      ({ initialStreamState with token := some "tok", tokenFetchTime := 9,
                                 fetchCount := 1 },
       [StreamEvent.tokenFetch (.ok "tok"),
        StreamEvent.post 9 (sampleChunks9.map Prod.snd ++ ["l10"]) "tok"]) :=
  streamHandler_tenth_add_flushes (constEnv "tok") sampleChunks9 9 "l10" "tok"
    rfl (by intro c hc; fin_cases hc <;> rfl) rfl rfl

/-- C3: closing a handler with `0 < M < BATCH_SIZE` buffered lines performs
exactly one final flush whose payload is exactly those `M` lines, and the
closed state is terminal: every later `addOutput` call (and any sequence of
them, under any environment) leaves the state untouched and produces no
effects whatsoever. -/
theorem streamHandler_close_terminal (env : StreamEnv) (now : Nat)
    (st : StreamState) (tok : String)
    (hopen : st.isClosed = false)
    (hne : st.buffer ≠ [])
    (hlt : st.buffer.length < BATCH_SIZE)
    (htok : env.tokenResults st.fetchCount = .ok tok) :
    postOutputs (close env now st).2 = [st.buffer] ∧
    (close env now st).1.isClosed = true ∧
    (close env now st).1.buffer = [] ∧
    (close env now st).1.flushTimer = none ∧
    (∀ (env2 : StreamEnv) (t : Nat) (d : String),
      addOutput env2 t d (close env now st).1 = ((close env now st).1, [])) ∧
    (∀ (env2 : StreamEnv) (chunks : List (Nat × String)),
      addOutputs env2 chunks (close env now st).1 = ((close env now st).1, [])) := by
  have hclosed : (close env now st).1.isClosed = true := by
    simp [close]
  have hmain : postOutputs (close env now st).2 = [st.buffer] ∧
      (close env now st).1.buffer = [] ∧
      (close env now st).1.flushTimer = none := by
    obtain ⟨tk, tft, buf, ft, cl, fc⟩ := st
    simp only at hne htok
    by_cases hcond : tokenTruthy tk = false ∨
        TOKEN_LIFETIME_MS ≤ now - tft
    · simp [close, flush, getToken, hne, hcond, htok, postOutputs]
    · simp [close, flush, getToken, hne, hcond, postOutputs]
  refine ⟨hmain.1, hclosed, hmain.2.1, hmain.2.2, ?_, ?_⟩
  · intro env2 t d
    simp [addOutput, hclosed]
  · intro env2 chunks
    exact addOutputs_closed env2 chunks _ hclosed

def sampleOpenState : StreamState :=
  { token := none, tokenFetchTime := 0, buffer := ["a", "b", "c"],
    flushTimer := some 42, isClosed := false, fetchCount := 0 }

/-- Witness for C3 at a concrete open handler with three buffered lines. -/
theorem streamHandler_close_terminal_witness :
    postOutputs (close (constEnv "tok") 5 sampleOpenState).2 =
      [["a", "b", "c"]] ∧
    (close (constEnv "tok") 5 sampleOpenState).1.isClosed = true ∧
    (close (constEnv "tok") 5 sampleOpenState).1.buffer = [] ∧
    (close (constEnv "tok") 5 sampleOpenState).1.flushTimer = none ∧
    addOutput (constEnv "tok") 7 "late"
        (close (constEnv "tok") 5 sampleOpenState).1 =
      ((close (constEnv "tok") 5 sampleOpenState).1, []) :=
  have h := streamHandler_close_terminal (constEnv "tok") 5 sampleOpenState
    "tok" rfl (by decide) (by decide) rfl
  ⟨h.1, h.2.1, h.2.2.1, h.2.2.2.1, h.2.2.2.2.1 (constEnv "tok") 7 "late"⟩

/-- C4: every failure of the token fetch or network call of a flush is swallowed.
A flush whose token fetch rejects still returns a normal state (relay open,
buffer swapped out, cache untouched); a later batch reaching the threshold is
still delivered; and none of `addOutput`, `flush`, `close` depends on the
network outcome of the POSTs (`postResults`), reflecting that the `fetch`
result is discarded and rejections are caught. -/
theorem streamHandler_swallows_failures (env : StreamEnv) (now : Nat)
    (st : StreamState) (e : String)
    (hopen : st.isClosed = false)
    (hne : st.buffer ≠ [])
    (hfresh : tokenTruthy st.token = false)
    (herr : env.tokenResults st.fetchCount = .error e) :
    flush env now st =
      ({ st with buffer := [], flushTimer := none,
                 fetchCount := st.fetchCount + 1 },
       [StreamEvent.tokenFetch (.error e)]) ∧
    (flush env now st).1.isClosed = false ∧
    (∀ (t : Nat) (d : String) (ls : List String) (tok : String),
      splitLines d = ls → BATCH_SIZE ≤ ls.length →
      env.tokenResults (st.fetchCount + 1) = .ok tok →
      (addOutput env t d (flush env now st).1).2 =
        [StreamEvent.tokenFetch (.ok tok), StreamEvent.post t ls tok]) ∧
    (∀ env2 : StreamEnv, env2.tokenResults = env.tokenResults →
      flush env2 now st = flush env now st ∧
      (∀ (t : Nat) (d : String), addOutput env2 t d st = addOutput env t d st) ∧
      close env2 now st = close env now st) := by
  obtain ⟨tk, tft, buf, ft, cl, fc⟩ := st
  simp only at hopen hne hfresh herr
  subst hopen
  have hflush : flush env now
      ⟨tk, tft, buf, ft, false, fc⟩ =
      (⟨tk, tft, [], none, false, fc + 1⟩,
       [StreamEvent.tokenFetch (.error e)]) := by
    simp [flush, getToken, hne, hfresh, herr]
  refine ⟨by rw [hflush], by rw [hflush], ?_, ?_⟩
  · intro t d ls tok hd hlen htok2
    rw [hflush]
    have hne2 : ¬ (ls = []) := by
      intro hcon
      rw [hcon] at hlen
      simp [BATCH_SIZE] at hlen
    simp [addOutput, flush, getToken, hd, hlen, hne2, hfresh, htok2]
  · intro env2 h2
    refine ⟨by simp [flush, getToken, h2], fun t d => ?_, by simp [close, flush, getToken, h2]⟩
    simp [addOutput, flush, getToken, h2]

/-- An environment whose first token fetch rejects and later ones succeed;
its POSTs all fail at the network level. -/
def flakyEnv : StreamEnv :=
  { tokenResults := fun n => if n = 0 then .error "boom" else .ok "tok2",
    postResults := fun _ => false }

/-- Same token oracle as `flakyEnv`, but every POST succeeds. -/
def flakyEnvPostsOk : StreamEnv :=
  { tokenResults := fun n => if n = 0 then .error "boom" else .ok "tok2",
    postResults := fun _ => true }

def sampleTenChunk : String := "m1\nm2\nm3\nm4\nm5\nm6\nm7\nm8\nm9\nm10"

/-- Witness for C4: a failed token fetch is swallowed and the next batch is
still delivered; the POST outcome never matters. -/
theorem streamHandler_swallows_failures_witness :
    flush flakyEnv 5 sampleOpenState =
      ({ token := none, tokenFetchTime := 0, buffer := [], flushTimer := none,
         isClosed := false, fetchCount := 1 },
       [StreamEvent.tokenFetch (.error "boom")]) ∧
    (flush flakyEnv 5 sampleOpenState).1.isClosed = false ∧
    (addOutput flakyEnv 6 sampleTenChunk (flush flakyEnv 5 sampleOpenState).1).2 =
      [StreamEvent.tokenFetch (.ok "tok2"),
       StreamEvent.post 6 ["m1", "m2", "m3", "m4", "m5", "m6", "m7", "m8",
         "m9", "m10"] "tok2"] ∧
    flush flakyEnvPostsOk 5 sampleOpenState = flush flakyEnv 5 sampleOpenState :=
  have h := streamHandler_swallows_failures flakyEnv 5 sampleOpenState "boom"
    rfl (by decide) rfl rfl
  ⟨h.1, h.2.1,
   h.2.2.1 6 sampleTenChunk
     ["m1", "m2", "m3", "m4", "m5", "m6", "m7", "m8", "m9", "m10"] "tok2"
     rfl (by decide) rfl,
   (h.2.2.2 flakyEnvPostsOk rfl).1⟩

/-- C5: a flush that needs a token fetches it (one fetch event), caching it
with its fetch time; a second flush strictly within `TOKEN_LIFETIME_MS` of
that fetch reuses the cached token with no further fetch; once the age
reaches the lifetime, the next flush fetches a fresh token — and only a
flush ever fetches: a sub-threshold `addOutput` performs no token fetch at
all (lazy, never proactive). -/
theorem streamHandler_token_cache (env : StreamEnv) (st : StreamState)
    (t1 t2 : Nat) (ls2 : List String) (tok : String)
    (hopen : st.isClosed = false)
    (hne : st.buffer ≠ [])
    (hfresh : tokenTruthy st.token = false)
    (htok : env.tokenResults st.fetchCount = .ok tok)
    (htt : tok ≠ "")
    (hls : ls2 ≠ []) :
    flush env t1 st =
      ({ st with token := some tok, tokenFetchTime := t1,
                 fetchCount := st.fetchCount + 1, buffer := [],
                 flushTimer := none },
       [StreamEvent.tokenFetch (.ok tok), StreamEvent.post t1 st.buffer tok]) ∧
    (t2 - t1 < TOKEN_LIFETIME_MS →
      flush env t2
          { st with token := some tok, tokenFetchTime := t1,
                    fetchCount := st.fetchCount + 1, buffer := ls2,
                    flushTimer := none } =
        ({ st with token := some tok, tokenFetchTime := t1,
                   fetchCount := st.fetchCount + 1, buffer := [],
                   flushTimer := none },
         [StreamEvent.post t2 ls2 tok])) ∧
    (∀ tok2 : String, TOKEN_LIFETIME_MS ≤ t2 - t1 →
      env.tokenResults (st.fetchCount + 1) = .ok tok2 →
      flush env t2
          { st with token := some tok, tokenFetchTime := t1,
                    fetchCount := st.fetchCount + 1, buffer := ls2,
                    flushTimer := none } =
        ({ st with token := some tok2, tokenFetchTime := t2,
                   fetchCount := st.fetchCount + 2, buffer := [],
                   flushTimer := none },
         [StreamEvent.tokenFetch (.ok tok2), StreamEvent.post t2 ls2 tok2])) ∧
    (∀ (t : Nat) (d : String), splitLines d = [d] →
      addOutput env t d
          { st with token := some tok, tokenFetchTime := t1,
                    fetchCount := st.fetchCount + 1, buffer := [],
                    flushTimer := none } =
        ({ st with token := some tok, tokenFetchTime := t1,
                   fetchCount := st.fetchCount + 1, buffer := [d],
                   flushTimer := some (t + BATCH_TIMEOUT_MS) },
         [])) := by
  obtain ⟨tk, tft, buf, ft, cl, fc⟩ := st
  simp only at hopen hne hfresh htok
  subst hopen
  refine ⟨?_, ?_, ?_, ?_⟩
  · simp [flush, getToken, hne, hfresh, htok]
  · intro hwin
    have hcached : ¬ (tokenTruthy (some tok) = false ∨
        TOKEN_LIFETIME_MS ≤ t2 - t1) := by
      simp [tokenTruthy, htt]
      omega
    simp [flush, getToken, hls, hcached]
  · intro tok2 hexp htok2
    have hcond : tokenTruthy (some tok) = false ∨
        TOKEN_LIFETIME_MS ≤ t2 - t1 := Or.inr hexp
    simp [flush, getToken, hls, hcond, htok2]
  · intro t d hd
    have hlen : ¬ (BATCH_SIZE ≤ 1) := by decide
    simp [addOutput, hd, hlen]

/-- C10: the batch threshold is a trigger, not a cap: one `addOutput` call on
a fresh open handler whose chunk splits into more than `BATCH_SIZE` non-empty
lines appends all of them to the buffer and then delivers every one of them
in a single flush, leaving the buffer empty. -/
theorem streamHandler_no_batch_cap (env : StreamEnv) (now : Nat) (d : String)
    (ls : List String) (tok : String)
    (hsplit : splitLines d = ls)
    (hlen : BATCH_SIZE < ls.length)
    (htok : env.tokenResults 0 = .ok tok) :
    addOutput env now d initialStreamState =
      ({ initialStreamState with token := some tok, tokenFetchTime := now,
                                 fetchCount := 1 },
       [StreamEvent.tokenFetch (.ok tok), StreamEvent.post now ls tok]) ∧
    postOutputs (addOutput env now d initialStreamState).2 = [ls] := by
  have hge : BATCH_SIZE ≤ ls.length := le_of_lt hlen
  have hne : ¬ (ls = []) := by
    intro hcon
    rw [hcon] at hlen
    simp [BATCH_SIZE] at hlen
  have hmain : addOutput env now d initialStreamState =
      ({ initialStreamState with token := some tok, tokenFetchTime := now,
                                 fetchCount := 1 },
       [StreamEvent.tokenFetch (.ok tok), StreamEvent.post now ls tok]) := by
    simp [addOutput, flush, getToken, initialStreamState, hsplit, hge, hne,
      tokenTruthy, htok]
  exact ⟨hmain, by rw [hmain]; simp [postOutputs]⟩

/-- An environment minting token `"tokA"` on the first fetch and `"tokB"`
afterwards. -/
def agingEnv : StreamEnv :=
  { tokenResults := fun n => .ok (if n = 0 then "tokA" else "tokB"),
    postResults := fun _ => true }

/-- Witness for C5: at concrete instants, a second flush 1000 ms after the
fetch reuses `"tokA"` with no new fetch; a flush 240000 ms after it mints
`"tokB"`; a sub-threshold `addOutput` fetches nothing. -/
theorem streamHandler_token_cache_witness :
    flush agingEnv 100 sampleOpenState =
      ({ token := some "tokA", tokenFetchTime := 100, buffer := [],
         flushTimer := none, isClosed := false, fetchCount := 1 },
       [StreamEvent.tokenFetch (.ok "tokA"),
        StreamEvent.post 100 ["a", "b", "c"] "tokA"]) ∧
    flush agingEnv 1100
        { token := some "tokA", tokenFetchTime := 100, buffer := ["x"],
          flushTimer := none, isClosed := false, fetchCount := 1 } =
      ({ token := some "tokA", tokenFetchTime := 100, buffer := [],
         flushTimer := none, isClosed := false, fetchCount := 1 },
       [StreamEvent.post 1100 ["x"] "tokA"]) ∧
    flush agingEnv 240100
        { token := some "tokA", tokenFetchTime := 100, buffer := ["x"],
          flushTimer := none, isClosed := false, fetchCount := 1 } =
      ({ token := some "tokB", tokenFetchTime := 240100, buffer := [],
         flushTimer := none, isClosed := false, fetchCount := 2 },
       [StreamEvent.tokenFetch (.ok "tokB"),
        StreamEvent.post 240100 ["x"] "tokB"]) ∧
    addOutput agingEnv 200 "y"
        { token := some "tokA", tokenFetchTime := 100, buffer := [],
          flushTimer := none, isClosed := false, fetchCount := 1 } =
      ({ token := some "tokA", tokenFetchTime := 100, buffer := ["y"],
         flushTimer := some (200 + BATCH_TIMEOUT_MS), isClosed := false,
         fetchCount := 1 }, []) :=
  have h1 := streamHandler_token_cache agingEnv sampleOpenState 100 1100
    ["x"] "tokA" rfl (by decide) rfl rfl (by decide) (by decide)
  have h2 := streamHandler_token_cache agingEnv sampleOpenState 100 240100
    ["x"] "tokA" rfl (by decide) rfl rfl (by decide) (by decide)
  ⟨h1.1, h1.2.1 (by decide), h2.2.2.1 "tokB" (by decide) rfl,
   h1.2.2.2 200 "y" rfl⟩

def sampleElevenChunk : String := "n1\nn2\nn3\nn4\nn5\nn6\nn7\nn8\nn9\nn10\nn11"

/-- Witness for C10 at a single chunk of eleven lines. -/
theorem streamHandler_no_batch_cap_witness :
    addOutput (constEnv "tok") 3 sampleElevenChunk initialStreamState =
      ({ initialStreamState with token := some "tok", tokenFetchTime := 3,
                                 fetchCount := 1 },
       [StreamEvent.tokenFetch (.ok "tok"),
        StreamEvent.post 3 ["n1", "n2", "n3", "n4", "n5", "n6", "n7", "n8",
          "n9", "n10", "n11"] "tok"]) ∧
    postOutputs (addOutput (constEnv "tok") 3 sampleElevenChunk
        initialStreamState).2 =
      [["n1", "n2", "n3", "n4", "n5", "n6", "n7", "n8", "n9", "n10", "n11"]] :=
  streamHandler_no_batch_cap (constEnv "tok") 3 sampleElevenChunk
    ["n1", "n2", "n3", "n4", "n5", "n6", "n7", "n8", "n9", "n10", "n11"] "tok"
    rfl (by decide) rfl

/-! ## Claims about mode selection -/

/-- C1: any context carrying a non-empty explicit prompt is classified as
`agent` (direct automation) by `detectMode`, regardless of event kind — in
particular never as `review`. -/
theorem detectMode_prompt_precedence (ctx : GitHubContext)
    (h : ctx.inputs.prompt ≠ "") :
    detectMode ctx = .agent ∧ detectMode ctx ≠ .review := by
  unfold detectMode
  simp [h]

def prOpenedWithPromptCtx : GitHubContext :=
  { eventName := .pull_request, eventAction := some "opened",
    inputs := { prompt := "do the thing", triggerPhrase := "@claude",
                assigneeTrigger := "", labelTrigger := "" },
    payload := { emptyPayload with
                 action := some "opened",
                 prBody := some "@claude please review" } }

/-- Witness for C1: a `pull_request` / `opened` event that also carries a
prompt (and even a matching trigger phrase in its body) is `agent`, not
`review`. -/
theorem detectMode_prompt_precedence_witness :
    prOpenedWithPromptCtx.inputs.prompt ≠ "" ∧
    detectMode prOpenedWithPromptCtx = .agent ∧
    detectMode prOpenedWithPromptCtx ≠ .review :=
  ⟨by decide, detectMode_prompt_precedence prOpenedWithPromptCtx (by decide)⟩

/-- C8: an explicitly supplied mode name outside the known set is not an
error: `getMode` falls back to automatic classification, returning exactly
what it would return with no override, and classification never fails — for
every context, `getMode` with no override succeeds. -/
theorem getMode_unknown_explicit_fallback (ctx : GitHubContext) (e : String)
    (h : isValidModeV1 e = false) :
    getMode ctx (some e) = .ok (autoMode (detectMode ctx)) ∧
    getMode ctx (some e) = getMode ctx none ∧
    ∀ ctx2 : GitHubContext, ∃ m : Mode, getMode ctx2 none = .ok m := by
  refine ⟨?_, ?_, ?_⟩
  · cases hd : detectMode ctx <;>
      simp [getMode, h, hd, autoDetectedModeName, modesLookup, autoMode]
  · cases hd : detectMode ctx <;>
      simp [getMode, h, hd, autoDetectedModeName, modesLookup]
  · intro ctx2
    cases hd : detectMode ctx2 with
    | tag =>
      exact ⟨tagMode, by simp [getMode, hd, autoDetectedModeName, modesLookup]⟩
    | agent =>
      exact ⟨agentMode, by simp [getMode, hd, autoDetectedModeName, modesLookup]⟩
    | review =>
      exact ⟨reviewMode, by simp [getMode, hd, autoDetectedModeName, modesLookup]⟩

def scheduleCtx : GitHubContext :=
  { eventName := .schedule, eventAction := none,
    inputs := { prompt := "", triggerPhrase := "@claude",
                assigneeTrigger := "", labelTrigger := "" },
    payload := emptyPayload }

/-- Witness for C8 at the unknown mode name `"bogus"` on a schedule event. -/
theorem getMode_unknown_explicit_fallback_witness :
    getMode scheduleCtx (some "bogus") =
      .ok (autoMode (detectMode scheduleCtx)) ∧
    getMode scheduleCtx (some "bogus") = getMode scheduleCtx none ∧
    ∀ ctx2 : GitHubContext, ∃ m : Mode, getMode ctx2 none = .ok m :=
  getMode_unknown_explicit_fallback scheduleCtx "bogus" (by decide)

/-! ## Claim about the resume resolver -/

/-- C6: `fetchResumeData` never escalates a failure: a non-2xx response, an
unparseable body, and a parsed body whose `log` field is not an array all
yield `none` (the embedded `null`), as does a rejected fetch; on success it
returns the `log` array together with the branch name, which is the empty
string when the `branch` field is absent. -/
theorem fetchResumeData_error_handling :
    (∀ (status : Nat) (body : Option Json), responseOk status = false →
      fetchResumeData (.response status body) = none) ∧
    (∀ status : Nat, fetchResumeData (.response status none) = none) ∧
    (∀ (status : Nat) (data : Json), responseOk status = true →
      (∀ msgs : List Json, jsonGet data "log" ≠ some (.arr msgs)) →
      fetchResumeData (.response status (some data)) = none) ∧
    fetchResumeData .netErr = none ∧
    (∀ (status : Nat) (data : Json) (msgs : List Json) (b : String),
      responseOk status = true →
      jsonGet data "log" = some (.arr msgs) →
      jsonGet data "branch" = some (.str b) →
      fetchResumeData (.response status (some data)) =
        some { messages := msgs, branchName := b }) ∧
    (∀ (status : Nat) (data : Json) (msgs : List Json),
      responseOk status = true →
      jsonGet data "log" = some (.arr msgs) →
      jsonGet data "branch" = none →
      fetchResumeData (.response status (some data)) =
        some { messages := msgs, branchName := "" }) := by
  refine ⟨?_, ?_, ?_, rfl, ?_, ?_⟩
  · intro status body hbad
    simp [fetchResumeData, hbad]
  · intro status
    by_cases hok : responseOk status = true
    · simp [fetchResumeData, hok]
    · simp [fetchResumeData, Bool.not_eq_true _ ▸ hok]
  · intro status data hok hlog
    cases hl : jsonGet data "log" with
    | none => simp [fetchResumeData, hok, hl]
    | some j =>
      cases j with
      | arr msgs => exact absurd hl (hlog msgs)
      | null => simp [fetchResumeData, hok, hl]
      | bool b => simp [fetchResumeData, hok, hl]
      | num n => simp [fetchResumeData, hok, hl]
      | str s => simp [fetchResumeData, hok, hl]
      | obj fields => simp [fetchResumeData, hok, hl]
  · intro status data msgs b hok hlog hbr
    simp [fetchResumeData, hok, hlog, hbr]
  · intro status data msgs hok hlog hbr
    simp [fetchResumeData, hok, hlog, hbr]

def sampleResumeBody : Json :=
  Json.obj [("log", Json.arr [Json.str "m1"]), ("branch", Json.str "claude/fix-1")]

/-- Witness for C6 at concrete responses: 404 and 500, a parse failure, a
non-array `log`, a rejected fetch, and two successes (with and without a
`branch` field). -/
theorem fetchResumeData_error_handling_witness :
    fetchResumeData (.response 404 (some (Json.obj []))) = none ∧
    fetchResumeData (.response 500 (some (Json.obj []))) = none ∧
    fetchResumeData (.response 200 none) = none ∧
    fetchResumeData
        (.response 200 (some (Json.obj [("log", Json.str "nope")]))) = none ∧
    fetchResumeData .netErr = none ∧
    fetchResumeData (.response 200 (some sampleResumeBody)) =
      some { messages := [Json.str "m1"], branchName := "claude/fix-1" } ∧
    fetchResumeData (.response 200 (some (Json.obj [("log", Json.arr [])]))) =
      some { messages := [], branchName := "" } :=
  have h := fetchResumeData_error_handling
  ⟨h.1 404 (some (Json.obj [])) (by decide),
   h.1 500 (some (Json.obj [])) (by decide),
   h.2.1 200,
   h.2.2.1 200 (Json.obj [("log", Json.str "nope")]) (by decide)
     (fun msgs hc => by
       rw [show jsonGet (Json.obj [("log", Json.str "nope")]) "log" =
             some (Json.str "nope") from rfl] at hc
       exact Json.noConfusion (Option.some.inj hc)),
   h.2.2.2.1,
   h.2.2.2.2.1 200 sampleResumeBody [Json.str "m1"] "claude/fix-1"
     (by decide) rfl rfl,
   h.2.2.2.2.2 200 (Json.obj [("log", Json.arr [])]) [] (by decide) rfl rfl⟩

/-! ## Claim about the lifecycle reporter -/

/-- C9: for every phase, message and code, `reportWorkflowFailed` builds a
payload whose `data` is a `workflow_failed` event carrying exactly the three
error fields `phase`, `message`, `code`; the payload and the immediate
(`void`) return value are independent of the eventual network
outcome — the request is fire-and-forget — and a failing request is caught:
it only sets the warning flag, for every outcome the call still yields a
normal `SendReport`. -/
theorem reportWorkflowFailed_payload (ts : String) (phase : FailPhase)
    (msg code : String) (outcome : NetOutcome) :
    (reportWorkflowFailed ts phase msg code outcome).payload =
      { timestamp := ts,
        data := .workflowFailed
          { phase := phase.str, message := msg, code := code } } ∧
    eventTypeOf (reportWorkflowFailed ts phase msg code outcome).payload.data =
      "workflow_failed" ∧
    (reportWorkflowFailed ts phase msg code outcome).payload =
      (reportWorkflowFailed ts phase msg code NetOutcome.reject).payload ∧
    (reportWorkflowFailed ts phase msg code outcome).returned = () ∧
    ((reportWorkflowFailed ts phase msg code outcome).warned = true ↔
      outcome = NetOutcome.reject) := by
  cases outcome with
  | ok status =>
    refine ⟨rfl, rfl, rfl, rfl, ?_⟩
    simp [reportWorkflowFailed, sendProgressEvent, backgroundSend]
  | reject =>
    exact ⟨rfl, rfl, rfl, rfl, by simp [reportWorkflowFailed, sendProgressEvent, backgroundSend]⟩

/-! ## Claim about trigger-phrase matching -/

theorem triggerScan_here (phrase post : List Char) (hph : phrase ≠ [])
    (hpost : trailOk post = true) :
    triggerScan phrase true (phrase ++ post) = true := by
  cases phrase with
  | nil => exact absurd rfl hph
  | cons a as =>
    have hpref : (a :: as).isPrefixOf ((a :: as) ++ post) = true := by
      rw [ List.isPrefixOf_iff_prefix]
      exact List.prefix_append _ _
    have hdrop : ((a :: as) ++ post).drop (a :: as).length = post :=
      List.drop_left _ _
    have hm : hereMatch (a :: as) ((a :: as) ++ post) = true := by
      unfold hereMatch
      rw [hpref, hdrop, hpost]
      rfl
    rw [List.cons_append] at hm ⊢
    simp only [triggerScan]
    rw [hm]
    simp

theorem triggerScan_after_ws (phrase post : List Char) (hph : phrase ≠ [])
    (hpost : trailOk post = true) (ws : Char) (hws : isWsChar ws = true) :
    ∀ (pre : List Char) (ab : Bool),
    triggerScan phrase ab (pre ++ ws :: (phrase ++ post)) = true := by
  intro pre
  induction pre with
  | nil =>
    intro ab
    rw [List.nil_append]
    simp only [triggerScan]
    rw [hws, triggerScan_here phrase post hph hpost]
    simp
  | cons d ds ih =>
    intro ab
    rw [List.cons_append]
    simp only [triggerScan]
    rw [ih (isWsChar d)]
    simp

theorem containsTriggerMatch_of_decomp (phrase : String)
    (preCs postCs : List Char)
    (hph : phrase.data ≠ [])
    (hpre : preCs = [] ∨ ∃ cs c, preCs = cs ++ [c] ∧ isWsChar c = true)
    (hpost : trailOk postCs = true) :
    containsTriggerMatch (String.mk (preCs ++ phrase.data ++ postCs))
      phrase = true := by
  unfold containsTriggerMatch
  rcases hpre with h | ⟨cs, c, rfl, hc⟩
  · subst h
    simpa using triggerScan_here phrase.data postCs hph hpost
  · have hre : (cs ++ [c]) ++ phrase.data ++ postCs =
        cs ++ c :: (phrase.data ++ postCs) := by
      simp
    show triggerScan phrase.data true ((cs ++ [c]) ++ phrase.data ++ postCs) = true
    rw [hre]
    exact triggerScan_after_ws phrase.data postCs hph hpost c hc cs true

/-- An `issue_comment` context with the given comment body and trigger
phrase, and no explicit prompt. -/
def mkCommentCtx (body phrase : String) : GitHubContext :=
  { eventName := .issue_comment, eventAction := some "created",
    inputs := { prompt := "", triggerPhrase := phrase,
                assigneeTrigger := "", labelTrigger := "" },
    payload := { emptyPayload with commentBody := some body } }

/-- C7 counterexample: `"Emailed @claudette about this"` contains the
configured phrase `"@claude"` as a substring (outside any code fence), yet
`checkContainsTrigger` rejects it — so matching is not substring-blind. -/
theorem checkContainsTrigger_substring_claim_false :
    "Emailed @claudette about this" =
      "Emailed " ++ "@claude" ++ "tte about this" ∧
    checkContainsTrigger
      (mkCommentCtx "Emailed @claudette about this" "@claude") = false := by
  constructor
  · rfl
  · decide

/-- C7 (amended): trigger-phrase matching is exact (case-sensitive — a case
variant of the phrase does not match) and ignores markdown context (it
matches inside code fences), but it is not substring-blind: the phrase
matches exactly when delimited — preceded by start-of-text or whitespace and
followed by end-of-text, whitespace or one of `.,!?;:` — so an occurrence
embedded inside a longer word (`@claudette`) does not trigger. -/
theorem checkContainsTrigger_delimited_match (phrase : String)
    (preCs postCs : List Char)
    (hph : phrase.data ≠ [])
    (hpre : preCs = [] ∨ ∃ cs c, preCs = cs ++ [c] ∧ isWsChar c = true)
    (hpost : trailOk postCs = true) :
    checkContainsTrigger
      (mkCommentCtx (String.mk (preCs ++ phrase.data ++ postCs)) phrase) =
      true ∧
    checkContainsTrigger
      (mkCommentCtx "Hey @Claude please help" "@claude") = false ∧
    checkContainsTrigger
      (mkCommentCtx "Here is an example:\n```\n@claude fix this\n```"
        "@claude") = true ∧
    checkContainsTrigger
      (mkCommentCtx "Emailed @claudette about this" "@claude") = false := by
  refine ⟨?_, by decide, by decide, by decide⟩
  have hmain := containsTriggerMatch_of_decomp phrase preCs postCs hph hpre hpost
  simp only [List.append_assoc] at hmain
  simp [checkContainsTrigger, mkCommentCtx, emptyPayload, isPullRequestEvent,
    isPullRequestReviewEvent, isIssueCommentEvent,
    isPullRequestReviewCommentEvent, hmain]

/-- Witness for the amended C7: `"Hey @claude thanks"` (phrase delimited by a
space on each side) matches. -/
theorem checkContainsTrigger_delimited_match_witness :
    checkContainsTrigger
      (mkCommentCtx
        (String.mk ("Hey ".data ++ "@claude".data ++ " thanks".data))
        "@claude") = true ∧
    checkContainsTrigger
      (mkCommentCtx "Hey @Claude please help" "@claude") = false ∧
    checkContainsTrigger
      (mkCommentCtx "Here is an example:\n```\n@claude fix this\n```"
        "@claude") = true ∧
    checkContainsTrigger
      (mkCommentCtx "Emailed @claudette about this" "@claude") = false :=
  checkContainsTrigger_delimited_match "@claude" "Hey ".data " thanks".data
    (by decide)
    (Or.inr ⟨"Hey".data, ' ', by decide, by decide⟩)
    (by decide)
